import Mathlib

/-!
# Verification of the ProjectTrace collaboration-analysis core

Shallow embedding of the pattern-detection algorithms of the ProjectTrace
pipeline (burst detection, influence ranking, milestone detection, phase
transitions, handoff classification, temporal graph links).

Modelling conventions:

* timestamps are rationals, measured in hours (Python `datetime` values;
  `timedelta.total_seconds()/3600` is exact division, so `ℚ` is faithful);
* Python `float` arithmetic on these quantities is modelled by exact `ℚ`
  arithmetic (the real-number semantics of the formulas in the source);
* Python `list`s become `List`, Python `set`s become `Finset`;
* `sorted` / `DataFrame.sort_values` become `List.insertionSort` with the
  corresponding key (a stable comparison sort; no claim below depends on
  the order of key-equal elements);
* text is handled at the level of `String.data : List Char`, with the
  relevant Python string operations (`in`, `split`, `lower`) re-implemented
  structurally.
-/

namespace ProjectTrace

/-- One row of the preprocessed timeline table (columns used by the
detectors: `event_id`, `date`, `type`, `subject`, `participants`). -/
structure TimelineEvent where
  event_id : String
  date : ℚ
  type : String
  subject : String
  participants : List String
deriving DecidableEq

/-! ## Burst detector: `_calculate_gini` (src/analysis/burst_detector.py 219-235) -/

/-- The accumulation loop of `_calculate_gini`:
`for i, val in enumerate(sorted_values): cumsum += (n - i) * val`. -/
def giniCumsumAux (n : ℕ) : ℕ → List ℕ → ℕ
  | _, [] => 0
  | i, v :: rest => (n - i) * v + giniCumsumAux n (i + 1) rest

/-- `CollaborationBurstDetector._calculate_gini(values)`. Sorts ascending,
accumulates `(n - i) * val` over the enumerated sorted list and returns
`(2*cumsum)/(n*total) - (n+1)/n`, guarding empty input and zero total. -/
def calculateGini (values : List ℕ) : ℚ :=
  if values = [] then 0
  else
    let sorted_values := List.insertionSort (· ≤ ·) values
    let n := values.length
    let cumsum := giniCumsumAux n 0 sorted_values
    let total := values.sum
    if total = 0 then 0
    else (2 * cumsum : ℚ) / (n * total) - (n + 1) / n

/-- `balance_score = 1 - gini` (src/analysis/burst_detector.py 202). -/
def balanceScore (values : List ℕ) : ℚ :=
  1 - calculateGini values

/-- The standard rank-weighted Gini coefficient, written from the spec's
words: with the values sorted ascending and 1-based ranks,
`G = (2 * Σ rank_i * x_i) / (n * Σ x_i) - (n+1)/n`.  This is the
spec-side definition that `calculateGini` is compared against. -/
def giniStd (values : List ℕ) : ℚ :=
  let sorted_values := List.insertionSort (· ≤ ·) values
  let n := values.length
  (2 * ∑ i ∈ Finset.range n, ((i : ℚ) + 1) * (sorted_values.getD i 0 : ℕ)) /
      (n * values.sum) - (n + 1) / n

/-! ### Gini lemmas -/

lemma giniCumsumAux_eq_sum (n : ℕ) (l : List ℕ) :
    ∀ i, giniCumsumAux n i l = ∑ k ∈ Finset.range l.length, (n - (i + k)) * l.getD k 0 := by
  induction l with
  | nil => intro i; simp [giniCumsumAux]
  | cons v rest ih =>
    intro i
    rw [List.length_cons, Finset.sum_range_succ']
    simp only [List.getD_cons_succ, List.getD_cons_zero, Nat.add_zero]
    rw [giniCumsumAux, ih (i + 1), add_comm]
    congr 1
    refine Finset.sum_congr rfl fun k _ => ?_
    rw [show i + 1 + k = i + (k + 1) from by omega]

lemma sum_range_getD (l : List ℕ) :
    ∑ k ∈ Finset.range l.length, l.getD k 0 = l.sum := by
  induction l with
  | nil => simp
  | cons v rest ih =>
    rw [List.length_cons, Finset.sum_range_succ']
    simp only [List.getD_cons_succ, List.getD_cons_zero]
    rw [ih, List.sum_cons, add_comm]

/-- The code's cumulative sum and the rank-weighted sum are complementary:
together they weight every element by `n + 1`. -/
lemma giniCumsum_add_rankSum (l : List ℕ) :
    giniCumsumAux l.length 0 l + ∑ k ∈ Finset.range l.length, (k + 1) * l.getD k 0 =
      (l.length + 1) * l.sum := by
  rw [giniCumsumAux_eq_sum, ← Finset.sum_add_distrib, ← sum_range_getD l, Finset.mul_sum]
  refine Finset.sum_congr rfl fun k hk => ?_
  have hk' : k < l.length := Finset.mem_range.mp hk
  rw [← Nat.add_mul]
  congr 1
  omega

lemma sum_range_add_one_cast (n : ℕ) :
    ∑ i ∈ Finset.range n, ((i : ℚ) + 1) = n * (n + 1) / 2 := by
  induction n with
  | zero => simp
  | succ m ih =>
    rw [Finset.sum_range_succ, ih]
    push_cast
    ring

/-- Chebyshev's sum inequality specialised to an ascending-sorted list of
naturals and the ascending rank weights `1..n`. -/
lemma rankSum_lower_bound (l : List ℕ) (hs : l.Sorted (· ≤ ·)) :
    ((l.length : ℚ) + 1) * l.sum ≤
      2 * ∑ k ∈ Finset.range l.length, ((k : ℚ) + 1) * (l.getD k 0 : ℕ) := by
  rcases Nat.eq_zero_or_pos l.length with h0 | hpos
  · rw [h0]
    rcases List.length_eq_zero.mp h0 with rfl
    simp
  · have hmono : MonovaryOn (fun i : ℕ => (i : ℚ) + 1)
        (fun i : ℕ => (l.getD i 0 : ℚ)) ↑(Finset.range l.length) := by
      intro i hi j hj hlt
      simp only [Finset.coe_range, Set.mem_Iio] at hi hj
      have hij : i < j := by
        by_contra hc
        push_neg at hc
        rcases Nat.lt_or_ge j i with hji | hji
        · have hrel := (List.pairwise_iff_get.mp hs) ⟨j, hj⟩ ⟨i, hi⟩ hji
          simp only [List.getD_eq_getElem l 0 hi, List.getD_eq_getElem l 0 hj,
            List.get_eq_getElem] at hlt hrel
          have hcast : (l[j] : ℚ) ≤ (l[i] : ℚ) := by exact_mod_cast hrel
          exact absurd hcast (not_le.mpr hlt)
        · have : j = i := le_antisymm hc hji
          subst this
          exact lt_irrefl _ hlt
      have hle : (i : ℚ) ≤ (j : ℚ) := by exact_mod_cast Nat.le_of_lt hij
      simpa using add_le_add_right hle 1
    have hcheb := hmono.sum_mul_sum_le_card_mul_sum
    simp only [Finset.card_range] at hcheb
    rw [sum_range_add_one_cast] at hcheb
    have hsum : ∑ i ∈ Finset.range l.length, (l.getD i 0 : ℚ) = (l.sum : ℚ) := by
      rw [← sum_range_getD l]
      push_cast
      rfl
    rw [hsum] at hcheb
    have hn : (0 : ℚ) < l.length := by exact_mod_cast hpos
    nlinarith [hcheb]

/-- **C9.** For every non-empty count list with positive total,
`_calculate_gini` returns exactly the negation of the standard
rank-weighted Gini coefficient, hence a value `≤ 0`; consequently the
balance score `1 - gini` is always `≥ 1`. -/
theorem calculateGini_eq_neg_std (values : List ℕ) (hne : values ≠ [])
    (hpos : 0 < values.sum) :
    calculateGini values = -giniStd values ∧ calculateGini values ≤ 0 ∧
      1 ≤ balanceScore values := by
  have hperm : (List.insertionSort (· ≤ ·) values).Perm values :=
    List.perm_insertionSort _ values
  have hlen : (List.insertionSort (· ≤ ·) values).length = values.length :=
    hperm.length_eq
  have hsum : (List.insertionSort (· ≤ ·) values).sum = values.sum := hperm.sum_eq
  have hsorted : (List.insertionSort (· ≤ ·) values).Sorted (· ≤ ·) :=
    List.sorted_insertionSort _ values
  have hnpos : 0 < values.length := List.length_pos.mpr hne
  have hTQ : (0 : ℚ) < (values.sum : ℚ) := by exact_mod_cast hpos
  have hnQ : (0 : ℚ) < (values.length : ℚ) := by exact_mod_cast hnpos
  set l := List.insertionSort (· ≤ ·) values with hl
  set n := values.length with hn
  set T := values.sum with hT
  -- the ℕ-level complement identity, cast to ℚ
  have hkey : (giniCumsumAux n 0 l : ℚ) =
      (n + 1) * T - ∑ k ∈ Finset.range n, ((k : ℚ) + 1) * (l.getD k 0 : ℕ) := by
    have h1 := giniCumsum_add_rankSum l
    rw [hlen, hsum] at h1
    have h2 : ((giniCumsumAux n 0 l : ℕ) : ℚ) +
        ∑ k ∈ Finset.range n, ((k : ℚ) + 1) * (l.getD k 0 : ℕ) = (n + 1) * T := by
      rw [show (∑ k ∈ Finset.range n, ((k : ℚ) + 1) * (l.getD k 0 : ℕ)) =
          ((∑ k ∈ Finset.range n, (k + 1) * l.getD k 0 : ℕ) : ℚ) by
            push_cast
            exact Finset.sum_congr rfl fun x hx => by ring]
      rw [← Nat.cast_add, h1]
      push_cast
      ring
    linarith
  have hcheb : ((n : ℚ) + 1) * T ≤
      2 * ∑ k ∈ Finset.range n, ((k : ℚ) + 1) * (l.getD k 0 : ℕ) := by
    have := rankSum_lower_bound l hsorted
    rw [hlen, hsum] at this
    exact this
  have hgini : calculateGini values =
      (2 * (giniCumsumAux n 0 l) : ℚ) / (n * T) - (n + 1) / n := by
    rw [calculateGini, if_neg hne, if_neg (Nat.pos_iff_ne_zero.mp hpos)]
  have hstd : giniStd values =
      (2 * ∑ k ∈ Finset.range n, ((k : ℚ) + 1) * (l.getD k 0 : ℕ)) / (n * T) -
        (n + 1) / n := by
    rw [giniStd]
  have heq : calculateGini values = -giniStd values := by
    rw [hgini, hstd, hkey]
    field_simp
    ring
  have hle : calculateGini values ≤ 0 := by
    rw [hgini, hkey]
    rw [sub_nonpos, div_le_div_iff₀ (by positivity) hnQ]
    nlinarith [hcheb]
  exact ⟨heq, hle, by simpa [balanceScore] using hle⟩

/-- Witness for `calculateGini_eq_neg_std` at the count list `[2, 1]`. -/
theorem calculateGini_eq_neg_std_witness :
    (([2, 1] : List ℕ) ≠ [] ∧ 0 < ([2, 1] : List ℕ).sum) ∧
      (calculateGini [2, 1] = -giniStd [2, 1] ∧ calculateGini [2, 1] ≤ 0 ∧
        1 ≤ balanceScore [2, 1]) :=
  ⟨⟨by decide, by decide⟩, calculateGini_eq_neg_std [2, 1] (by decide) (by decide)⟩

/-- **C1.** `_calculate_gini` agrees with the standard rank-weighted Gini
on uniform inputs (value `0`) but returns the *negation* on skewed inputs:
on per-participant counts `[29, 0, 0]` the code yields `-2/3` where the
standard coefficient is `+2/3` (approaching `1` on extreme skew). -/
theorem calculateGini_skew_evaluation :
    calculateGini [5, 5, 5] = 0 ∧ calculateGini [29, 0, 0] = -(2 / 3) ∧
      giniStd [29, 0, 0] = 2 / 3 := by
  refine ⟨?_, ?_, ?_⟩ <;>
    · norm_num [calculateGini, giniStd, giniCumsumAux, List.insertionSort,
        List.orderedInsert, Finset.sum_range_succ]
      try decide

/-! ## Burst detector: `detect_bursts` (src/analysis/burst_detector.py 115-172) -/

/-- The configurable parameters of `CollaborationBurstDetector.__init__`
(non-adaptive path).  Counting thresholds are naturals, the window size a
rational number of hours. -/
structure BurstParams where
  window_hours : ℚ
  min_events : ℕ
  min_participants : ℕ
  max_participants : ℕ

/-- Ordering of timeline rows by the `date` column
(`timeline_df.sort_values('date')`). -/
def dateLe (a b : TimelineEvent) : Prop := a.date ≤ b.date

instance : DecidableRel dateLe := fun a b =>
  inferInstanceAs (Decidable (a.date ≤ b.date))

instance : IsTotal TimelineEvent dateLe := ⟨fun a b => le_total a.date b.date⟩

instance : IsTrans TimelineEvent dateLe := ⟨fun _ _ _ h1 h2 => le_trans h1 h2⟩

/-- `all_participants.update(...)` over the window events: the union of all
participant sets. -/
def participantsUnion (events : List TimelineEvent) : Finset String :=
  events.foldl (fun s e => s ∪ e.participants.toFinset) ∅

/-- `participant_counts[p] += 1` on a `defaultdict(int)`, modelled as an
insertion-ordered association list. -/
def addCount (q : String) : List (String × ℕ) → List (String × ℕ)
  | [] => [(q, 1)]
  | (k, v) :: rest => if k = q then (k, v + 1) :: rest else (k, v) :: addCount q rest

/-- The `participant_counts` dictionary of `_calculate_burst_confidence`
(lines 194-197): occurrence counts per participant over all window events,
keyed in first-seen order; `.values()` is the list of counts. -/
def participantCounts (events : List TimelineEvent) : List ℕ :=
  (events.foldl (fun acc e => e.participants.foldl (fun a q => addCount q a) acc) []).map
    Prod.snd

/-- `CollaborationBurst` (src/models/schemas.py), with the Python
`list(all_participants)` kept as the underlying `Finset`. -/
structure CollaborationBurst where
  start_date : ℚ
  end_date : ℚ
  participants : Finset String
  event_count : ℕ
  event_types : List String
  confidence : ℚ
  trigger_events : List String
deriving DecidableEq

/-- `_calculate_burst_confidence(events, participants)` (lines 174-217).
The `participants` argument is unused in the source as well.  `[-1]`/`[0]`
indexing is realised on the non-empty pattern. -/
def calculateBurstConfidence : List TimelineEvent → Finset String → ℚ
  | [], _ => 0
  | e :: rest, _ =>
    let events := e :: rest
    let duration_hours := max ((events.getLastD e).date - e.date) 1
    let density_score := min 1 ((events.length : ℚ) / (duration_hours * 2))
    let counts := participantCounts events
    let balance_score := if counts = [] then 0 else balanceScore counts
    let type_diversity := ((events.map (·.type)).toFinset.card : ℚ) / 2
    min 1 ((0.4 : ℚ) * density_score + (0.3 : ℚ) * balance_score +
      (0.3 : ℚ) * type_diversity)

/-- `_overlaps_with_existing(new_burst, existing_bursts)` (lines 237-256):
the loop returns `True` as soon as some existing burst has a positive
temporal overlap that exceeds 70% of the **new** burst's duration.
Durations are converted to seconds exactly as `total_seconds()` does. -/
def overlapsWithExisting (new_burst : CollaborationBurst)
    (existing_bursts : List CollaborationBurst) : Prop :=
  ∃ existing ∈ existing_bursts,
    max new_burst.start_date existing.start_date <
        min new_burst.end_date existing.end_date ∧
      (new_burst.end_date - new_burst.start_date) * 3600 > 0 ∧
      ((min new_burst.end_date existing.end_date -
          max new_burst.start_date existing.start_date) * 3600) /
        ((new_burst.end_date - new_burst.start_date) * 3600) > (0.7 : ℚ)

instance (nb : CollaborationBurst) (ebs : List CollaborationBurst) :
    Decidable (overlapsWithExisting nb ebs) :=
  List.decidableBEx _ ebs

/-- The sliding-window loop of `detect_bursts` (lines 129-169): the head of
the first argument is `timeline[i]`, the window is grown over the sorted
suffix while timestamps stay within `window_start + window_hours` (the
`break` makes the inner loop a `takeWhile` on the suffix), and accepted
bursts are appended to the accumulator. -/
def detectBurstsAux (p : BurstParams) :
    List TimelineEvent → List CollaborationBurst → List CollaborationBurst
  | [], bursts => bursts
  | e :: rest, bursts =>
    let window_end := e.date + p.window_hours
    let window_events := (e :: rest).takeWhile fun ev => decide (ev.date ≤ window_end)
    let all_participants := participantsUnion window_events
    if p.min_events ≤ window_events.length ∧
        p.min_participants ≤ all_participants.card ∧
        all_participants.card ≤ p.max_participants then
      let burst : CollaborationBurst :=
        { start_date := e.date
          end_date := (window_events.getLastD e).date
          participants := all_participants
          event_count := window_events.length
          event_types := window_events.map (·.type)
          confidence := calculateBurstConfidence window_events all_participants
          trigger_events := window_events.map (·.event_id) }
      if overlapsWithExisting burst bursts then
        detectBurstsAux p rest bursts
      else
        detectBurstsAux p rest (bursts ++ [burst])
    else
      detectBurstsAux p rest bursts

/-- `detect_bursts(timeline_df)` (lines 115-172): empty guard, sort by
date, then the sliding-window scan. -/
def detectBursts (p : BurstParams) (timeline_df : List TimelineEvent) :
    List CollaborationBurst :=
  if timeline_df = [] then []
  else detectBurstsAux p (List.insertionSort dateLe timeline_df) []

/-- Overlap between two bursts as the spec words it:
`max(0, min(ends) - max(starts))`, in hours. -/
def overlapDuration (a b : CollaborationBurst) : ℚ :=
  max 0 (min a.end_date b.end_date - max a.start_date b.start_date)

/-- The spec's mutual-overlap bound for a pair of accepted bursts: the
overlap is at most 70% of **either** burst's duration. -/
def mutualOverlapOK (a b : CollaborationBurst) : Prop :=
  overlapDuration a b ≤ (0.7 : ℚ) * (a.end_date - a.start_date) ∧
    overlapDuration a b ≤ (0.7 : ℚ) * (b.end_date - b.start_date)

/-- The per-burst facts C8 and C10 assert about every accepted burst. -/
def BurstWellFormed (p : BurstParams) (b : CollaborationBurst) : Prop :=
  b.start_date ≤ b.end_date ∧
    b.end_date - b.start_date ≤ p.window_hours ∧
    b.event_count = b.trigger_events.length ∧
    p.min_participants ≤ b.participants.card ∧
    b.participants.card ≤ p.max_participants

lemma getLastD_mem {α : Type} : ∀ (l : List α) (d : α), l ≠ [] → l.getLastD d ∈ l := by
  intro l
  induction l with
  | nil => intro d h; exact absurd rfl h
  | cons x xs ih =>
    intro d _
    rw [List.getLastD_cons]
    rcases eq_or_ne xs [] with h | h
    · subst h; simp [List.getLastD]
    · exact List.mem_cons_of_mem _ (ih x h)

/-- A burst built at start index `e` over a sorted suffix is well formed
(provided the window is non-empty, which `1 ≤ min_events` guarantees at
every acceptance site). -/
lemma burst_candidate_wellFormed (p : BurstParams) (e : TimelineEvent)
    (rest : List TimelineEvent) (hsorted : (e :: rest).Sorted dateLe)
    (hguard : p.min_events ≤
        ((e :: rest).takeWhile fun ev => decide (ev.date ≤ e.date + p.window_hours)).length ∧
      p.min_participants ≤ (participantsUnion
        ((e :: rest).takeWhile fun ev => decide (ev.date ≤ e.date + p.window_hours))).card ∧
      (participantsUnion
        ((e :: rest).takeWhile fun ev => decide (ev.date ≤ e.date + p.window_hours))).card ≤
        p.max_participants)
    (hme : 1 ≤ p.min_events) :
    BurstWellFormed p
      { start_date := e.date
        end_date := (((e :: rest).takeWhile
          fun ev => decide (ev.date ≤ e.date + p.window_hours)).getLastD e).date
        participants := participantsUnion
          ((e :: rest).takeWhile fun ev => decide (ev.date ≤ e.date + p.window_hours))
        event_count := ((e :: rest).takeWhile
          fun ev => decide (ev.date ≤ e.date + p.window_hours)).length
        event_types := ((e :: rest).takeWhile
          fun ev => decide (ev.date ≤ e.date + p.window_hours)).map (·.type)
        confidence := calculateBurstConfidence
          ((e :: rest).takeWhile fun ev => decide (ev.date ≤ e.date + p.window_hours))
          (participantsUnion
            ((e :: rest).takeWhile fun ev => decide (ev.date ≤ e.date + p.window_hours)))
        trigger_events := ((e :: rest).takeWhile
          fun ev => decide (ev.date ≤ e.date + p.window_hours)).map (·.event_id) } := by
  set w := (e :: rest).takeWhile fun ev => decide (ev.date ≤ e.date + p.window_hours) with hw
  have hwne : w ≠ [] := by
    intro h
    rw [h] at hguard
    simp at hguard
    omega
  have hlast_mem : w.getLastD e ∈ w := getLastD_mem w e hwne
  have hmem_cons : w.getLastD e ∈ e :: rest :=
    (hw ▸ List.takeWhile_sublist _).subset hlast_mem
  have hpred : (w.getLastD e).date ≤ e.date + p.window_hours := by
    have hmem_tw : w.getLastD e ∈
        (e :: rest).takeWhile fun ev => decide (ev.date ≤ e.date + p.window_hours) :=
      hw ▸ hlast_mem
    have h1 := List.mem_takeWhile_imp hmem_tw
    simp only [decide_eq_true_eq] at h1
    exact h1
  have hstart : e.date ≤ (w.getLastD e).date := by
    rcases List.mem_cons.mp hmem_cons with h | h
    · rw [h]
    · exact (List.sorted_cons.mp hsorted).1 _ h
  refine ⟨hstart, by linarith, by simp, hguard.2.1, hguard.2.2⟩

/-- Structural invariant of the sliding-window loop: every burst in the
output is either from the accumulator or well formed. -/
lemma detectBurstsAux_wellFormed (p : BurstParams) (hme : 1 ≤ p.min_events) :
    ∀ (l : List TimelineEvent) (acc : List CollaborationBurst),
      l.Sorted dateLe → (∀ b ∈ acc, BurstWellFormed p b) →
      ∀ b ∈ detectBurstsAux p l acc, BurstWellFormed p b := by
  intro l
  induction l with
  | nil => intro acc _ hacc b hb; exact hacc b (by simpa [detectBurstsAux] using hb)
  | cons e rest ih =>
    intro acc hsorted hacc b hb
    rw [detectBurstsAux] at hb
    simp only at hb
    split at hb
    case isTrue hguard =>
      split at hb
      case isTrue hover => exact ih acc (List.sorted_cons.mp hsorted).2 hacc b hb
      case isFalse hover =>
        refine ih _ (List.sorted_cons.mp hsorted).2 ?_ b hb
        intro b' hb'
        rcases List.mem_append.mp hb' with h | h
        · exact hacc b' h
        · rcases List.mem_singleton.mp h with rfl
          exact burst_candidate_wellFormed p e rest hsorted hguard hme
    case isFalse hguard => exact ih acc (List.sorted_cons.mp hsorted).2 hacc b hb

/-- **C8.** Every burst returned by `detect_bursts` has `start ≤ end`,
`event_count = |trigger_events|`, and a participant-set size within
`[min_participants, max_participants]` (for any parameter set that demands
at least one event per burst, as all configured parameter sets do). -/
theorem detectBursts_burst_invariants (p : BurstParams) (tl : List TimelineEvent)
    (hme : 1 ≤ p.min_events) :
    ∀ b ∈ detectBursts p tl,
      b.start_date ≤ b.end_date ∧ b.event_count = b.trigger_events.length ∧
        p.min_participants ≤ b.participants.card ∧
        b.participants.card ≤ p.max_participants := by
  intro b hb
  rw [detectBursts] at hb
  by_cases htl : tl = []
  · rw [if_pos htl] at hb; cases hb
  · rw [if_neg htl] at hb
    have := detectBurstsAux_wellFormed p hme (List.insertionSort dateLe tl) []
      (List.sorted_insertionSort dateLe tl) (by intro b' hb'; cases hb') b hb
    exact ⟨this.1, this.2.2.1, this.2.2.2.1, this.2.2.2.2⟩

/-- Witness for `detectBursts_burst_invariants` on a one-event timeline. -/
theorem detectBursts_burst_invariants_witness :
    1 ≤ (BurstParams.mk 48 1 1 8).min_events ∧
      ∀ b ∈ detectBursts (BurstParams.mk 48 1 1 8) [⟨"x", 0, "email", "s", ["a"]⟩],
        b.start_date ≤ b.end_date ∧ b.event_count = b.trigger_events.length ∧
          (BurstParams.mk 48 1 1 8).min_participants ≤ b.participants.card ∧
          b.participants.card ≤ (BurstParams.mk 48 1 1 8).max_participants :=
  ⟨by decide, detectBursts_burst_invariants (BurstParams.mk 48 1 1 8)
    [⟨"x", 0, "email", "s", ["a"]⟩] (by decide)⟩

/-- **C10.** Every burst returned by `detect_bursts` spans at most the
configured window: `end_date - start_date ≤ window_hours`. -/
theorem detectBursts_duration_le_window (p : BurstParams) (tl : List TimelineEvent)
    (hme : 1 ≤ p.min_events) :
    ∀ b ∈ detectBursts p tl, b.end_date - b.start_date ≤ p.window_hours := by
  intro b hb
  rw [detectBursts] at hb
  by_cases htl : tl = []
  · rw [if_pos htl] at hb; cases hb
  · rw [if_neg htl] at hb
    exact (detectBurstsAux_wellFormed p hme (List.insertionSort dateLe tl) []
      (List.sorted_insertionSort dateLe tl) (by intro b' hb'; cases hb') b hb).2.1

/-- Witness for `detectBursts_duration_le_window` on a two-event timeline. -/
theorem detectBursts_duration_le_window_witness :
    1 ≤ (BurstParams.mk 48 1 1 8).min_events ∧
      ∀ b ∈ detectBursts (BurstParams.mk 48 1 1 8)
          [⟨"x", 0, "email", "s", ["a"]⟩, ⟨"y", 2, "meeting", "t", ["a", "b"]⟩],
        b.end_date - b.start_date ≤ (BurstParams.mk 48 1 1 8).window_hours :=
  ⟨by decide, detectBursts_duration_le_window (BurstParams.mk 48 1 1 8)
    [⟨"x", 0, "email", "s", ["a"]⟩, ⟨"y", 2, "meeting", "t", ["a", "b"]⟩] (by decide)⟩

lemma pair_sublist_append_singleton {α : Type} {x y z : α} {l : List α}
    (h : [x, y].Sublist (l ++ [z])) : [x, y].Sublist l ∨ (x ∈ l ∧ y = z) := by
  rcases List.sublist_append_iff.mp h with ⟨l₁, l₂, heq, h1, h2⟩
  have h2' : l₂ = [] ∨ l₂ = [z] := by
    cases h2 with
    | cons _ hs => exact Or.inl (List.sublist_nil.mp hs)
    | cons₂ _ hs => exact Or.inr (by rw [List.sublist_nil.mp hs])
  rcases h2' with rfl | rfl
  · rw [List.append_nil] at heq
    rw [← heq] at h1
    exact Or.inl h1
  · cases l₁ with
    | nil => simp at heq
    | cons a as =>
      cases as with
      | nil =>
        simp only [List.cons_append, List.nil_append, List.cons.injEq] at heq
        obtain ⟨hx, hy, -⟩ := heq
        subst hx
        exact Or.inr ⟨h1.subset (List.mem_singleton_self x), hy⟩
      | cons c cs => simp at heq

/-- If a candidate passed the dedup check, its overlap with every already
accepted burst is at most 70% of its own duration. -/
lemma not_overlaps_bound (nb : CollaborationBurst) (acc : List CollaborationBurst)
    (hnb : nb.start_date ≤ nb.end_date) (hover : ¬ overlapsWithExisting nb acc)
    (a : CollaborationBurst) (ha : a ∈ acc) :
    overlapDuration a nb ≤ (0.7 : ℚ) * (nb.end_date - nb.start_date) := by
  rw [overlapsWithExisting] at hover
  push_neg at hover
  have h := hover a ha
  by_cases hlt : max nb.start_date a.start_date < min nb.end_date a.end_date
  · have hD : 0 < nb.end_date - nb.start_date := by
      have h1 : min nb.end_date a.end_date ≤ nb.end_date := min_le_left _ _
      have h2 : nb.start_date ≤ max nb.start_date a.start_date := le_max_left _ _
      linarith
    have hnd : (0 : ℚ) < (nb.end_date - nb.start_date) * 3600 := by linarith
    have hratio := h hlt hnd
    rw [div_le_iff₀ hnd] at hratio
    have hle : min nb.end_date a.end_date - max nb.start_date a.start_date ≤
        (0.7 : ℚ) * (nb.end_date - nb.start_date) := by nlinarith
    rw [overlapDuration, min_comm a.end_date nb.end_date, max_comm a.start_date nb.start_date]
    exact max_le (by nlinarith) hle
  · rw [not_lt] at hlt
    rw [overlapDuration, min_comm a.end_date nb.end_date, max_comm a.start_date nb.start_date]
    exact max_le (by nlinarith) (by nlinarith)

/-- Structural invariant of the dedup step: within the accumulator, every
later-accepted burst overlaps every earlier one by at most 70% of the
later burst's own duration. -/
lemma detectBurstsAux_overlap_invariant (p : BurstParams) (hme : 1 ≤ p.min_events) :
    ∀ (l : List TimelineEvent) (acc : List CollaborationBurst),
      l.Sorted dateLe → (∀ b ∈ acc, BurstWellFormed p b) →
      (∀ a b, [a, b].Sublist acc →
        overlapDuration a b ≤ (0.7 : ℚ) * (b.end_date - b.start_date)) →
      ∀ a b, [a, b].Sublist (detectBurstsAux p l acc) →
        overlapDuration a b ≤ (0.7 : ℚ) * (b.end_date - b.start_date) := by
  intro l
  induction l with
  | nil =>
    intro acc _ _ hpair a b hab
    exact hpair a b (by simpa [detectBurstsAux] using hab)
  | cons e rest ih =>
    intro acc hsorted hacc hpair a b hab
    rw [detectBurstsAux] at hab
    simp only at hab
    split at hab
    case isTrue hguard =>
      split at hab
      case isTrue hover =>
        exact ih acc (List.sorted_cons.mp hsorted).2 hacc hpair a b hab
      case isFalse hover =>
        have hnbwf := burst_candidate_wellFormed p e rest hsorted hguard hme
        refine ih _ (List.sorted_cons.mp hsorted).2 ?_ ?_ a b hab
        · intro b' hb'
          rcases List.mem_append.mp hb' with h | h
          · exact hacc b' h
          · rcases List.mem_singleton.mp h with rfl
            exact hnbwf
        · intro a' b' hab'
          rcases pair_sublist_append_singleton hab' with h | ⟨hmem, rfl⟩
          · exact hpair a' b' h
          · exact not_overlaps_bound _ acc hnbwf.1 hover a' hmem
    case isFalse hguard =>
      exact ih acc (List.sorted_cons.mp hsorted).2 hacc hpair a b hab

/-- **C3 (amended).** In one run of `detect_bursts`, every accepted burst
overlaps each *earlier*-accepted burst by at most 70% of the *later*
burst's own duration (the dedup check divides only by the new candidate's
duration, so the symmetric bound of the original claim does not hold). -/
theorem detectBursts_overlap_le_later_duration (p : BurstParams)
    (tl : List TimelineEvent) (hme : 1 ≤ p.min_events) (a b : CollaborationBurst)
    (hab : [a, b].Sublist (detectBursts p tl)) :
    overlapDuration a b ≤ (0.7 : ℚ) * (b.end_date - b.start_date) := by
  rw [detectBursts] at hab
  by_cases htl : tl = []
  · rw [if_pos htl] at hab
    exact absurd (hab.length_le) (by simp)
  · rw [if_neg htl] at hab
    exact detectBurstsAux_overlap_invariant p hme (List.insertionSort dateLe tl) []
      (List.sorted_insertionSort dateLe tl) (by intro b' hb'; cases hb')
      (by intro a' b' h; exact absurd h.length_le (by simp)) a b hab

/-- A four-event timeline (hours 0, 2, 10, 102) on which `detect_bursts`
with `window_hours = 100`, `min_events = 1`, participants `1..8` accepts
three bursts whose first pair violates the symmetric 70% bound. -/
def c3Timeline : List TimelineEvent :=
  [⟨"e0", 0, "email", "s", ["a"]⟩, ⟨"e1", 2, "email", "s", ["a"]⟩,
   ⟨"e2", 10, "email", "s", ["a"]⟩, ⟨"e3", 102, "email", "s", ["a"]⟩]

def c3Params : BurstParams := ⟨100, 1, 1, 8⟩

def c3BurstA : CollaborationBurst :=
  ⟨0, 10, {"a"}, 3, ["email", "email", "email"], 51 / 100, ["e0", "e1", "e2"]⟩

def c3BurstB : CollaborationBurst :=
  ⟨2, 102, {"a"}, 3, ["email", "email", "email"], 57 / 125, ["e1", "e2", "e3"]⟩

def c3BurstD : CollaborationBurst :=
  ⟨102, 102, {"a"}, 1, ["email"], 13 / 20, ["e3"]⟩

lemma detectBursts_c3_eval :
    detectBursts c3Params c3Timeline = [c3BurstA, c3BurstB, c3BurstD] := by
  norm_num [detectBursts, c3Params, c3Timeline, detectBurstsAux,
    List.insertionSort, List.orderedInsert, dateLe, participantsUnion,
    participantCounts, addCount, calculateBurstConfidence, balanceScore,
    calculateGini, giniCumsumAux, overlapsWithExisting, List.getLastD,
    List.takeWhile, c3BurstA, c3BurstB, c3BurstD, min_def, max_def]
  intro h
  exact absurd h (by simp)

/-- **C3 (counterexample).** On `c3Timeline`, the accepted bursts
`[0,10]` and `[2,102]` overlap by 8 hours, which exceeds 70% of the first
burst's 10-hour duration: the pairwise mutual 70% bound claimed for
`detect_bursts` fails. -/
theorem detectBursts_mutual_overlap_counterexample :
    ¬ (∀ a ∈ detectBursts c3Params c3Timeline,
        ∀ b ∈ detectBursts c3Params c3Timeline, a ≠ b → mutualOverlapOK a b) := by
  intro hclaim
  have hA : c3BurstA ∈ detectBursts c3Params c3Timeline := by
    rw [detectBursts_c3_eval]; simp
  have hB : c3BurstB ∈ detectBursts c3Params c3Timeline := by
    rw [detectBursts_c3_eval]; simp
  have hne : c3BurstA ≠ c3BurstB := by
    intro h
    have := congrArg CollaborationBurst.start_date h
    norm_num [c3BurstA, c3BurstB] at this
  have hok := hclaim c3BurstA hA c3BurstB hB hne
  rw [mutualOverlapOK] at hok
  have h1 := hok.1
  norm_num [overlapDuration, c3BurstA, c3BurstB, min_def, max_def] at h1

/-- Witness for `detectBursts_overlap_le_later_duration`: on `c3Timeline`
the pair (first, second accepted burst) satisfies the amended bound
(8-hour overlap against 70% of the later burst's 100-hour duration). -/
theorem detectBursts_overlap_le_later_duration_witness :
    1 ≤ c3Params.min_events ∧
      overlapDuration c3BurstA c3BurstB ≤
        (0.7 : ℚ) * (c3BurstB.end_date - c3BurstB.start_date) :=
  ⟨by decide, detectBursts_overlap_le_later_duration c3Params c3Timeline (by decide)
    c3BurstA c3BurstB (by
      rw [detectBursts_c3_eval]
      exact List.sublist_append_left [c3BurstA, c3BurstB] [c3BurstD])⟩

/-! ## Graph builder: `_create_temporal_links` (src/models/graph_builder.py 151-204) -/

/-- `EmailEvent` (src/models/schemas.py 38-44); the optional free-text
fields not read by the graph builder are omitted. -/
structure EmailEvent where
  subject : String
  email_count : ℕ
  participants : List String
  first_date : ℚ
  last_date : ℚ
  thread_id : String
deriving DecidableEq

/-- `CalendarEvent` (src/models/schemas.py 62-72); optional free-text
fields not read by the detectors are omitted.  `end` is a Lean keyword, so
the meeting end time is called `end_time`. -/
structure CalendarEvent where
  uid : String
  summary : String
  start : ℚ
  end_time : ℚ
  organizer : String
  attendees : List String
  has_startupco_in_title : Bool
  has_startupco_participant : Bool
deriving DecidableEq

/-- One entry of the `all_events` list assembled in
`_create_temporal_links` (lines 160-177). -/
structure TemporalEventEntry where
  id : String
  date : ℚ
  participants : Finset String
  type : String
deriving DecidableEq

/-- Lines 162-177: emails contribute `(thread_id, first_date,
set(participants), 'email')`, meetings `(uid, start, set(attendees),
'meeting')`. -/
def allTemporalEvents (emails : List EmailEvent)
    (calendar_events : List CalendarEvent) : List TemporalEventEntry :=
  emails.map (fun e => ⟨e.thread_id, e.first_date, e.participants.toFinset, "email"⟩) ++
    calendar_events.map (fun ev => ⟨ev.uid, ev.start, ev.attendees.toFinset, "meeting"⟩)

/-- A `temporal_proximity` edge with its attribute dictionary. -/
structure TemporalEdge where
  src : String
  dst : String
  time_diff_hours : ℚ
  shared_participants : ℕ
  confidence : ℚ
deriving DecidableEq

/-- The edge added for a qualifying pair (lines 194-201):
`{time_diff_hours, shared_participants, confidence = min(1, shared/3)}`. -/
def mkTemporalEdge (e1 e2 : TemporalEventEntry) : TemporalEdge :=
  ⟨e1.id, e2.id, e2.date - e1.date, (e1.participants ∩ e2.participants).card,
    min 1 (((e1.participants ∩ e2.participants).card : ℚ) / 3)⟩

/-- Ordering of `all_events` by date (line 180). -/
def entryDateLe (a b : TemporalEventEntry) : Prop := a.date ≤ b.date

instance : DecidableRel entryDateLe := fun a b =>
  inferInstanceAs (Decidable (a.date ≤ b.date))

instance : IsTotal TemporalEventEntry entryDateLe := ⟨fun a b => le_total a.date b.date⟩

instance : IsTrans TemporalEventEntry entryDateLe := ⟨fun _ _ _ h1 h2 => le_trans h1 h2⟩

/-- The inner loop over `all_events[i+1:]` (lines 185-202): `break` once
the time gap exceeds `window_hours = 48`, add an edge when the participant
sets intersect. -/
def temporalScan (e1 : TemporalEventEntry) : List TemporalEventEntry → List TemporalEdge
  | [] => []
  | e2 :: rest =>
    if e2.date - e1.date > 48 then []
    else if (e1.participants ∩ e2.participants).Nonempty then
      mkTemporalEdge e1 e2 :: temporalScan e1 rest
    else temporalScan e1 rest

/-- The outer loop over start indices `i` (line 184). -/
def temporalLinksSorted : List TemporalEventEntry → List TemporalEdge
  | [] => []
  | e :: rest => temporalScan e rest ++ temporalLinksSorted rest

/-- `_create_temporal_links(emails, calendar_events)`: collect, sort by
date, scan forward with early exit. -/
def createTemporalLinks (emails : List EmailEvent)
    (calendar_events : List CalendarEvent) : List TemporalEdge :=
  temporalLinksSorted
    (List.insertionSort entryDateLe (allTemporalEvents emails calendar_events))

/-- All ordered pairs `(i < j)` of a list, in scan order: the spec-side
description of which pairs the scan considers. -/
def orderedPairs {α : Type} : List α → List (α × α)
  | [] => []
  | a :: rest => rest.map (fun b => (a, b)) ++ orderedPairs rest

/-- The spec-side acceptance predicate for a pair: time gap at most
`window_hours = 48` and intersecting participant sets. -/
def temporalPairAccept (q : TemporalEventEntry × TemporalEventEntry) : Bool :=
  decide (q.2.date - q.1.date ≤ 48 ∧ (q.1.participants ∩ q.2.participants).Nonempty)

lemma temporalScan_eq_filter (e1 : TemporalEventEntry)
    (l : List TemporalEventEntry) (hsort : l.Sorted entryDateLe) :
    temporalScan e1 l =
      ((l.map (fun b => (e1, b))).filter temporalPairAccept).map
        (fun q => mkTemporalEdge q.1 q.2) := by
  induction l with
  | nil => simp [temporalScan]
  | cons e2 rest ih =>
    have hrest : ∀ x ∈ rest, e2.date ≤ x.date := (List.sorted_cons.mp hsort).1
    rw [temporalScan]
    by_cases hgap : e2.date - e1.date > 48
    · rw [if_pos hgap]
      have hall : ((e2 :: rest).map (fun b => (e1, b))).filter temporalPairAccept = [] := by
        rw [List.filter_eq_nil_iff]
        intro q hq
        rcases List.mem_map.mp hq with ⟨b, hb, rfl⟩
        simp only [temporalPairAccept, decide_eq_true_eq, not_and]
        intro hle
        rcases List.mem_cons.mp hb with rfl | hbm
        · exact absurd hle (not_le.mpr hgap)
        · have := hrest b hbm
          exact absurd hle (not_le.mpr (by linarith))
      rw [hall, List.map_nil]
    · rw [if_neg hgap]
      push_neg at hgap
      rw [List.map_cons, List.filter_cons]
      by_cases hsh : (e1.participants ∩ e2.participants).Nonempty
      · rw [if_pos hsh]
        have hacc : temporalPairAccept (e1, e2) = true := by
          simp [temporalPairAccept, hgap, hsh]
        simp [hacc, ih (List.sorted_cons.mp hsort).2]
      · rw [if_neg hsh]
        have hacc : ¬ temporalPairAccept (e1, e2) = true := by
          simp [temporalPairAccept, hsh]
        simp [hacc, ih (List.sorted_cons.mp hsort).2]

lemma temporalLinksSorted_eq_pairs (l : List TemporalEventEntry)
    (hsort : l.Sorted entryDateLe) :
    temporalLinksSorted l =
      ((orderedPairs l).filter temporalPairAccept).map
        (fun q => mkTemporalEdge q.1 q.2) := by
  induction l with
  | nil => simp [temporalLinksSorted, orderedPairs]
  | cons e rest ih =>
    rw [temporalLinksSorted, orderedPairs, List.filter_append, List.map_append,
      temporalScan_eq_filter e rest (List.sorted_cons.mp hsort).2,
      ih (List.sorted_cons.mp hsort).2]

/-- **C6.** The graph builder creates a `temporal_proximity` edge exactly
for the ordered (sorted-by-date) pairs whose start-time gap is at most 48
hours and whose participant sets intersect; in particular two events 50
hours apart with a shared participant produce no edge, and two events 10
hours apart with disjoint participants produce no edge. -/
theorem createTemporalLinks_iff_accept (emails : List EmailEvent)
    (calendar_events : List CalendarEvent) :
    (createTemporalLinks emails calendar_events =
      ((orderedPairs (List.insertionSort entryDateLe
          (allTemporalEvents emails calendar_events))).filter temporalPairAccept).map
        (fun q => mkTemporalEdge q.1 q.2)) ∧
      createTemporalLinks []
        [⟨"m1", "x", 0, 1, "o", ["a"], false, false⟩,
         ⟨"m2", "y", 50, 51, "o", ["a"], false, false⟩] = [] ∧
      createTemporalLinks []
        [⟨"m1", "x", 0, 1, "o", ["a"], false, false⟩,
         ⟨"m2", "y", 10, 11, "o", ["b"], false, false⟩] = [] := by
  refine ⟨temporalLinksSorted_eq_pairs _ (List.sorted_insertionSort _ _), ?_, ?_⟩ <;>
    · norm_num [createTemporalLinks, allTemporalEvents, temporalLinksSorted,
        temporalScan, List.insertionSort, List.orderedInsert, entryDateLe,
        List.toFinset_cons, Finset.singleton_inter_of_mem,
        Finset.singleton_inter_of_not_mem]
      try decide

/-! ## Handoff detector (src/analysis/handoff_detector.py) -/

/-- `HandoffDetector.__init__` parameters. -/
structure HandoffParams where
  time_gap_days : ℤ
  min_new_participants : ℕ
  turnover_threshold : ℚ

/-- The four `handoff_type` values produced by
`_analyze_participant_change`. -/
inductive HandoffType where
  | gap_resumption
  | team_expansion
  | team_turnover
  | departure
deriving DecidableEq

/-- One handoff record (the dictionary built in
`_analyze_participant_change`; the `handoff_id` column added afterwards is
the positional index and is not repeated here). -/
structure Handoff where
  date : ℚ
  handoff_type : HandoffType
  new_participants : Finset String
  departed_participants : Finset String
  new_count : ℕ
  departed_count : ℕ
  time_gap_days : ℤ
  event_subject : String
  event_type : String
  confidence : ℚ
deriving DecidableEq

/-- `(curr_row['date'] - prev_row['date']).days`: `timedelta.days` floors
toward minus infinity; dates are in hours. -/
def timeGapDays (prev_row curr_row : TimelineEvent) : ℤ :=
  ⌊(curr_row.date - prev_row.date) / 24⌋

/-- `_analyze_participant_change` (lines 104-194): the guard for an
unchanged participant set, then the four classification rules in
first-match-wins order. -/
def analyzeParticipantChange (p : HandoffParams) (prev_row curr_row : TimelineEvent)
    (prev_participants _curr_participants new_people departed_people : Finset String) :
    Option Handoff :=
  if new_people = ∅ ∧ departed_people = ∅ then none
  else
    let time_gap := timeGapDays prev_row curr_row
    let total_prev := prev_participants.card
    let turnover_rate : ℚ :=
      if 0 < total_prev then (departed_people.card : ℚ) / total_prev else 0
    if time_gap > p.time_gap_days ∧ 1 ≤ new_people.card then
      some
        { date := curr_row.date
          handoff_type := HandoffType.gap_resumption
          new_participants := new_people
          departed_participants := departed_people
          new_count := new_people.card
          departed_count := departed_people.card
          time_gap_days := time_gap
          event_subject := curr_row.subject
          event_type := curr_row.type
          confidence := min 1 (((new_people.card : ℚ) / 3) * ((time_gap : ℚ) / 30)) }
    else if p.min_new_participants ≤ new_people.card then
      some
        { date := curr_row.date
          handoff_type := HandoffType.team_expansion
          new_participants := new_people
          departed_participants := departed_people
          new_count := new_people.card
          departed_count := departed_people.card
          time_gap_days := time_gap
          event_subject := curr_row.subject
          event_type := curr_row.type
          confidence := min 1 ((new_people.card : ℚ) / 5) }
    else if p.turnover_threshold ≤ turnover_rate ∧ 1 ≤ new_people.card then
      some
        { date := curr_row.date
          handoff_type := HandoffType.team_turnover
          new_participants := new_people
          departed_participants := departed_people
          new_count := new_people.card
          departed_count := departed_people.card
          time_gap_days := time_gap
          event_subject := curr_row.subject
          event_type := curr_row.type
          confidence := turnover_rate }
    else if 1 ≤ departed_people.card ∧ new_people = ∅ then
      some
        { date := curr_row.date
          handoff_type := HandoffType.departure
          new_participants := ∅
          departed_participants := departed_people
          new_count := 0
          departed_count := departed_people.card
          time_gap_days := time_gap
          event_subject := curr_row.subject
          event_type := curr_row.type
          confidence := min 1 ((departed_people.card : ℚ) / 3) }
    else none

/-- The consecutive-pair loop of `detect_handoffs` (lines 62-85), on the
date-sorted timeline. -/
def detectHandoffsAux (p : HandoffParams) : List TimelineEvent → List Handoff
  | prev_row :: curr_row :: rest =>
    (match analyzeParticipantChange p prev_row curr_row
        prev_row.participants.toFinset curr_row.participants.toFinset
        (curr_row.participants.toFinset \ prev_row.participants.toFinset)
        (prev_row.participants.toFinset \ curr_row.participants.toFinset) with
      | some h => [h]
      | none => []) ++ detectHandoffsAux p (curr_row :: rest)
  | _ => []

/-- `detect_handoffs(timeline_df)` (lines 42-102): guard for fewer than
two rows, sort by date, analyse consecutive pairs.  The final
`sort_values('date')` is retained; pairs are already generated in date
order, so it sorts stably by the same key. -/
def detectHandoffs (p : HandoffParams) (timeline_df : List TimelineEvent) :
    List Handoff :=
  if timeline_df = [] ∨ timeline_df.length < 2 then []
  else
    List.insertionSort (fun a b => a.date ≤ b.date)
      (detectHandoffsAux p (List.insertionSort dateLe timeline_df))

/-- **C7.** Whenever the `gap_resumption` condition holds for a
consecutive pair (time gap above `time_gap_days` and at least one new
participant), `_analyze_participant_change` classifies that pair as
`gap_resumption` — never `team_expansion`, regardless of
`min_new_participants`; the rules are mutually exclusive because the
function returns the first match only. -/
theorem handoff_gap_resumption_priority (p : HandoffParams)
    (prev_row curr_row : TimelineEvent) (prevP currP newP depP : Finset String)
    (hgap : p.time_gap_days < timeGapDays prev_row curr_row)
    (hnew : 1 ≤ newP.card) :
    ∀ h, analyzeParticipantChange p prev_row curr_row prevP currP newP depP = some h →
      h.handoff_type = HandoffType.gap_resumption := by
  intro h hsome
  rw [analyzeParticipantChange] at hsome
  have hne : ¬ (newP = ∅ ∧ depP = ∅) := by
    intro hc
    rw [hc.1] at hnew
    simp at hnew
  rw [if_neg hne] at hsome
  simp only at hsome
  rw [if_pos ⟨hgap, hnew⟩] at hsome
  cases hsome
  rfl

/-- Witness for `handoff_gap_resumption_priority`: a 20-day gap with one
new participant while `min_new_participants = 1` is also met. -/
theorem handoff_gap_resumption_priority_witness :
    ((HandoffParams.mk 14 1 (0.7 : ℚ)).time_gap_days <
        timeGapDays ⟨"p", 0, "email", "s", ["a"]⟩ ⟨"q", 480, "email", "t", ["a", "b"]⟩ ∧
      1 ≤ ({"b"} : Finset String).card) ∧
      ∀ h, analyzeParticipantChange (HandoffParams.mk 14 1 (0.7 : ℚ))
          ⟨"p", 0, "email", "s", ["a"]⟩ ⟨"q", 480, "email", "t", ["a", "b"]⟩
          {"a"} {"a", "b"} {"b"} ∅ = some h →
        h.handoff_type = HandoffType.gap_resumption :=
  ⟨⟨by norm_num [timeGapDays], by decide⟩,
    handoff_gap_resumption_priority (HandoffParams.mk 14 1 (0.7 : ℚ))
      ⟨"p", 0, "email", "s", ["a"]⟩ ⟨"q", 480, "email", "t", ["a", "b"]⟩
      {"a"} {"a", "b"} {"b"} ∅ (by norm_num [timeGapDays]) (by decide)⟩

/-! ## Python string helpers

Structural re-implementations (over `String.data`) of the Python string
operations the detectors use: `split(sep)`, `str.title()`, `lower()`,
substring membership (`in`), `startswith`. -/

/-- `s.split(sep)` on character lists: split at every occurrence. -/
def splitOnChar (sep : Char) : List Char → List (List Char)
  | [] => [[]]
  | c :: rest =>
    match splitOnChar sep rest with
    | [] => [[]]
    | seg :: segs => if c = sep then [] :: seg :: segs else (c :: seg) :: segs

/-- `s.split(sep)` returning strings. -/
def pySplit (s : String) (sep : Char) : List String :=
  (splitOnChar sep s.data).map fun l => ⟨l⟩

/-- `str.title()`: an alphabetic character is uppercased after a
non-alphabetic character (or at the start) and lowercased otherwise. -/
def titleCaseAux : Bool → List Char → List Char
  | _, [] => []
  | prevAlpha, c :: rest =>
    if c.isAlpha then
      (if prevAlpha then c.toLower else c.toUpper) :: titleCaseAux true rest
    else c :: titleCaseAux false rest

def pyTitle (s : String) : String := ⟨titleCaseAux false s.data⟩

/-- `s.lower()`. -/
def strLower (s : String) : String := ⟨s.data.map Char.toLower⟩

/-- Python substring containment `needle in hay`. -/
def substrB : List Char → List Char → Bool
  | needle, [] => needle.isEmpty
  | needle, c :: rest => needle.isPrefixOf (c :: rest) || substrB needle rest

/-- `kw in s` for strings. -/
def strContains (hay needle : String) : Bool := substrB needle.data hay.data

/-! ## Influence mapper (src/analysis/influence_mapper.py)

The PageRank / degree / betweenness centralities are computed by networkx
(an external collaborator) on the person subgraph; they enter the
embedding as abstract score functions.  Everything from the guards and
activity statistics through role classification, ranking and rank
assignment is embedded from the source. -/

/-- `InfluenceMapper.__init__` thresholds. -/
structure InfluenceParams where
  high_influence_threshold : ℚ
  high_activity_threshold : ℕ

/-- `_classify_role(influence, activity)` (lines 194-215). -/
def classifyRole (p : InfluenceParams) (influence : ℚ) (activity : ℕ) : String :=
  if p.high_influence_threshold ≤ influence ∧ p.high_activity_threshold ≤ activity then
    "Active Leader"
  else if p.high_influence_threshold ≤ influence ∧
      ¬ p.high_activity_threshold ≤ activity then
    "Strategic Leader"
  else if ¬ p.high_influence_threshold ≤ influence ∧
      p.high_activity_threshold ≤ activity then
    "Executor"
  else "Contributor"

/-- `_extract_organization(email)` (lines 217-234). -/
def extractOrganization (email : String) : String :=
  if ¬ email.data.contains '@' then "Unknown"
  else
    let domain := (pySplit email '@').getD 1 ""
    let domain2 := if "www.".data.isPrefixOf domain.data then (⟨domain.data.drop 4⟩ : String)
      else domain
    let parts := pySplit domain2 '.'
    if 2 ≤ parts.length then pyTitle (parts.getD 0 "")
    else pyTitle domain2

/-- One participant's entry in `_calculate_activity_stats` (lines
164-192); a missing participant yields the all-zero default used by
`stats.get`. -/
structure ActivityStats where
  total_events : ℕ
  email_count : ℕ
  meeting_count : ℕ
deriving DecidableEq

def activityStats (timeline_df : List TimelineEvent) (person : String) : ActivityStats :=
  { total_events := (timeline_df.map (fun e => e.participants.count person)).sum
    email_count := ((timeline_df.filter (fun e => e.type == "email")).map
      (fun e => e.participants.count person)).sum
    meeting_count := ((timeline_df.filter (fun e => e.type == "meeting")).map
      (fun e => e.participants.count person)).sum }

/-- A node of the collaboration graph, as far as `calculate_influence`
reads it (`attr.get('type')`). -/
structure GraphNode where
  id : String
  type : String
deriving DecidableEq

structure InfluenceGraph where
  nodes : List GraphNode
deriving DecidableEq

/-- One row of the influence DataFrame (lines 99-116). -/
structure InfluenceRow where
  participant : String
  influence_score : ℚ
  pagerank : ℚ
  degree_centrality : ℚ
  betweenness_centrality : ℚ
  event_count : ℕ
  email_count : ℕ
  meeting_count : ℕ
  role : String
  organization : String
  rank : ℕ
deriving DecidableEq

/-- Python `round(q, k)`.  (CPython rounds exact .5 ties of the underlying
float to even; `round` here rounds such ties up.  No concrete value below
hits a tie, and no claim depends on tie behaviour.) -/
def roundTo (k : ℕ) (q : ℚ) : ℚ := (round (q * 10 ^ k) : ℤ) / 10 ^ k

/-- Descending order by `influence_score`
(`sort_values('influence_score', ascending=False)`). -/
def scoreDesc (a b : InfluenceRow) : Prop := b.influence_score ≤ a.influence_score

instance : DecidableRel scoreDesc := fun a b =>
  inferInstanceAs (Decidable (b.influence_score ≤ a.influence_score))

instance : IsTotal InfluenceRow scoreDesc := ⟨fun a b => le_total b.influence_score a.influence_score⟩

instance : IsTrans InfluenceRow scoreDesc := ⟨fun _ _ _ h1 h2 => le_trans h2 h1⟩

/-- `influence_df['rank'] = range(1, len(influence_df) + 1)` (line 116):
positional rank starting at `i`. -/
def addRanks : ℕ → List InfluenceRow → List InfluenceRow
  | _, [] => []
  | i, r :: rest => { r with rank := i } :: addRanks (i + 1) rest

/-- `calculate_influence(graph, timeline_df)` (lines 40-123): empty-graph
and no-person guards, per-person metrics row, descending sort by score,
positional ranks `1..N`. -/
def calculateInfluence (p : InfluenceParams) (pagerank degree betweenness : String → ℚ)
    (graph : InfluenceGraph) (timeline_df : List TimelineEvent) : List InfluenceRow :=
  if graph.nodes.length = 0 then []
  else
    let person_nodes := (graph.nodes.filter (fun nd => nd.type == "person")).map (·.id)
    if person_nodes = [] then []
    else
      let results : List InfluenceRow := person_nodes.map fun person =>
        let influence_score := pagerank person
        let stats := activityStats timeline_df person
        { participant := person
          influence_score := roundTo 4 influence_score
          pagerank := roundTo 4 influence_score
          degree_centrality := roundTo 4 (degree person)
          betweenness_centrality := roundTo 4 (betweenness person)
          event_count := stats.total_events
          email_count := stats.email_count
          meeting_count := stats.meeting_count
          role := classifyRole p influence_score stats.total_events
          organization := extractOrganization person
          rank := 0 }
      addRanks 1 (List.insertionSort scoreDesc results)

lemma addRanks_score_mem :
    ∀ (i : ℕ) (l : List InfluenceRow) (b : InfluenceRow), b ∈ addRanks i l →
      ∃ r ∈ l, b.influence_score = r.influence_score ∧ i ≤ b.rank := by
  intro i l
  induction l generalizing i with
  | nil => intro b hb; simp [addRanks] at hb
  | cons r rest ih =>
    intro b hb
    rw [addRanks] at hb
    rcases List.mem_cons.mp hb with rfl | htail
    · exact ⟨r, List.mem_cons_self r rest, rfl, le_refl _⟩
    · rcases ih (i + 1) b htail with ⟨r₀, hr₀, hsc, hge⟩
      exact ⟨r₀, List.mem_cons_of_mem _ hr₀, hsc, by omega⟩

lemma addRanks_sorted :
    ∀ (i : ℕ) (l : List InfluenceRow), l.Sorted scoreDesc →
      (addRanks i l).Sorted scoreDesc := by
  intro i l
  induction l generalizing i with
  | nil => intro _; simp [addRanks]
  | cons r rest ih =>
    intro hs
    rw [addRanks]
    refine List.sorted_cons.mpr ⟨?_, ih (i + 1) (List.sorted_cons.mp hs).2⟩
    intro b hb
    rcases addRanks_score_mem (i + 1) rest b hb with ⟨r₀, hr₀, hsc, -⟩
    have h := (List.sorted_cons.mp hs).1 r₀ hr₀
    rw [scoreDesc] at h ⊢
    rw [hsc]
    simpa using h

lemma addRanks_length : ∀ (i : ℕ) (l : List InfluenceRow),
    (addRanks i l).length = l.length := by
  intro i l
  induction l generalizing i with
  | nil => simp [addRanks]
  | cons r rest ih => simp [addRanks, ih]

lemma addRanks_map_rank : ∀ (i : ℕ) (l : List InfluenceRow),
    (addRanks i l).map (·.rank) = List.range' i l.length := by
  intro i l
  induction l generalizing i with
  | nil => simp [addRanks]
  | cons r rest ih =>
    rw [addRanks, List.map_cons, ih (i + 1), List.length_cons, List.range'_succ]

lemma addRanks_one_rank_max (l : List InfluenceRow) (hs : l.Sorted scoreDesc) :
    ∀ r ∈ addRanks 1 l, r.rank = 1 →
      ∀ r' ∈ addRanks 1 l, r'.influence_score ≤ r.influence_score := by
  cases l with
  | nil => simp [addRanks]
  | cons s t =>
    intro r hr hrank r' hr'
    rw [addRanks] at hr hr'
    rcases List.mem_cons.mp hr with rfl | hrtail
    · rcases List.mem_cons.mp hr' with rfl | hr'tail
      · exact le_refl _
      · rcases addRanks_score_mem _ _ _ hr'tail with ⟨r₀, hr₀, hsc, -⟩
        have h := (List.sorted_cons.mp hs).1 r₀ hr₀
        rw [scoreDesc] at h
        rw [hsc]
        simpa using h
    · rcases addRanks_score_mem _ _ _ hrtail with ⟨r₀, -, -, hge⟩
      omega

/-- **C5 (amended).** The influence table is sorted by score in descending
order and carries the *positional* (ordinal) ranks `1..N`: rank 1 holds a
maximal score, but the ranks are `range(1, N+1)`, so two participants with
equal scores receive *distinct consecutive* ranks rather than the same
dense rank. -/
theorem calculateInfluence_ranking (p : InfluenceParams)
    (pagerank degree betweenness : String → ℚ) (graph : InfluenceGraph)
    (timeline_df : List TimelineEvent) :
    (calculateInfluence p pagerank degree betweenness graph timeline_df).Sorted
        scoreDesc ∧
      (calculateInfluence p pagerank degree betweenness graph timeline_df).map
          (·.rank) =
        List.range' 1
          (calculateInfluence p pagerank degree betweenness graph timeline_df).length ∧
      ∀ r ∈ calculateInfluence p pagerank degree betweenness graph timeline_df,
        r.rank = 1 →
        ∀ r' ∈ calculateInfluence p pagerank degree betweenness graph timeline_df,
          r'.influence_score ≤ r.influence_score := by
  rw [calculateInfluence]
  split
  · exact ⟨List.sorted_nil, by simp, by simp⟩
  · simp only
    split
    · exact ⟨List.sorted_nil, by simp, by simp⟩
    · refine ⟨addRanks_sorted 1 _ (List.sorted_insertionSort _ _), ?_,
        addRanks_one_rank_max _ (List.sorted_insertionSort _ _)⟩
      rw [addRanks_map_rank, addRanks_length,
        (List.perm_insertionSort scoreDesc _).length_eq]

def c5Graph : InfluenceGraph := ⟨[⟨"a", "person"⟩, ⟨"b", "person"⟩]⟩

def c5RowA : InfluenceRow :=
  ⟨"a", 1 / 2, 1 / 2, 0, 0, 0, 0, 0, "Strategic Leader", "Unknown", 1⟩

def c5RowB : InfluenceRow :=
  ⟨"b", 1 / 2, 1 / 2, 0, 0, 0, 0, 0, "Strategic Leader", "Unknown", 2⟩

/-- On a two-person graph where the centrality scores tie (as PageRank
yields on any symmetric two-person collaboration), the table carries the
distinct ranks 1 and 2. -/
lemma calculateInfluence_c5_eval :
    calculateInfluence ⟨(0.03 : ℚ), 10⟩ (fun _ => (1 : ℚ) / 2) (fun _ => 0)
      (fun _ => 0) c5Graph [] = [c5RowA, c5RowB] := by
  have horg : extractOrganization "a" = "Unknown" := by decide
  have horg' : extractOrganization "b" = "Unknown" := by decide
  norm_num [calculateInfluence, c5Graph, activityStats, classifyRole, roundTo,
    round_eq, horg, horg', scoreDesc, addRanks, List.insertionSort,
    List.orderedInsert, c5RowA, c5RowB]
  intro h
  exact absurd h (by simp)

/-- **C5 (counterexample).** Two participants with equal influence scores
do *not* receive the same rank value: with tied scores `1/2` the assigned
ranks are 1 and 2, refuting the dense-rank part of the claim. -/
theorem influence_dense_rank_counterexample :
    ¬ (∀ r ∈ calculateInfluence ⟨(0.03 : ℚ), 10⟩ (fun _ => (1 : ℚ) / 2) (fun _ => 0)
          (fun _ => 0) c5Graph [],
        ∀ r' ∈ calculateInfluence ⟨(0.03 : ℚ), 10⟩ (fun _ => (1 : ℚ) / 2) (fun _ => 0)
          (fun _ => 0) c5Graph [],
          r.influence_score = r'.influence_score → r.rank = r'.rank) := by
  intro hclaim
  have hA : c5RowA ∈ calculateInfluence ⟨(0.03 : ℚ), 10⟩ (fun _ => (1 : ℚ) / 2)
      (fun _ => 0) (fun _ => 0) c5Graph [] := by
    rw [calculateInfluence_c5_eval]; simp
  have hB : c5RowB ∈ calculateInfluence ⟨(0.03 : ℚ), 10⟩ (fun _ => (1 : ℚ) / 2)
      (fun _ => 0) (fun _ => 0) c5Graph [] := by
    rw [calculateInfluence_c5_eval]; simp
  have := hclaim c5RowA hA c5RowB hB (by rw [c5RowA, c5RowB])
  rw [c5RowA, c5RowB] at this
  simp at this

/-! ## Phase transition detector (src/analysis/phase_detector.py)

The windowing and TF-IDF topic-extraction stages call scikit-learn (an
external collaborator) and enter the embedding as abstract stage
functions; the transition identification over the extracted window topics
(lines 213-262) is embedded from the source. -/

/-- `PhaseTransitionDetector.__init__` parameters. -/
structure PhaseParams where
  window_days : ℕ
  step_days : ℕ
  similarity_threshold : ℚ
  min_events_per_window : ℕ
  top_keywords : ℕ

/-- One entry of `window_topics` (lines 175-182); the dict key `end` is a
Lean keyword and is called `end_time`. -/
structure WindowTopic where
  window_id : ℕ
  start : ℚ
  end_time : ℚ
  keywords : List String
  event_count : ℕ
  subjects : List String
deriving DecidableEq

/-- One transition row (lines 249-260).  The `description` string keeps
the phase names; the `:.2%`-formatted similarity embedded in the Python
f-string is display-only and is not rendered. -/
structure PhaseTransitionRow where
  date : ℚ
  previous_phase : String
  new_phase : String
  previous_keywords : List String
  new_keywords : List String
  similarity_score : ℚ
  confidence : ℚ
  event_count : ℕ
  description : String
deriving DecidableEq

/-- Jaccard similarity of two keyword lists as sets (lines 225-231):
`|A∩B| / |A∪B|`, and `0` when the union is empty. -/
def jaccardSimilarity (kw1 kw2 : List String) : ℚ :=
  let set1 := kw1.toFinset
  let set2 := kw2.toFinset
  let intersection := (set1 ∩ set2).card
  let union := (set1 ∪ set2).card
  if 0 < union then (intersection : ℚ) / union else 0

/-- `_infer_phase_name(keywords)` (lines 264-297): ordered keyword-pattern
match over the space-joined lowercased keywords, falling back to the
title-cased first keyword or "Unknown". -/
def inferPhaseName (keywords : List String) : String :=
  let keywords_str := " ".intercalate (keywords.map strLower)
  if ["workshop", "kickoff", "briefing", "discovery", "planning"].any
      (fun w => strContains keywords_str w) then "Planning"
  else if ["design", "brand", "identity", "visual", "creative"].any
      (fun w => strContains keywords_str w) then "Design"
  else if ["architecture", "technical", "implementation", "development"].any
      (fun w => strContains keywords_str w) then "Development"
  else if ["presentation", "review", "demo", "delivery"].any
      (fun w => strContains keywords_str w) then "Delivery"
  else if ["scope", "requirements", "specification", "documentation"].any
      (fun w => strContains keywords_str w) then "Scoping"
  else if ["launch", "release", "deployment", "live"].any
      (fun w => strContains keywords_str w) then "Launch"
  else if ["maintenance", "support", "update", "iteration"].any
      (fun w => strContains keywords_str w) then "Maintenance"
  else
    match keywords with
    | k :: _ => pyTitle k
    | [] => "Unknown"

/-- The loop body of `_identify_transitions` for one consecutive window
pair (lines 220-260): emit a transition exactly when the Jaccard
similarity falls below the threshold. -/
def pairTransition (p : PhaseParams) (prev_window curr_window : WindowTopic) :
    Option PhaseTransitionRow :=
  let similarity := jaccardSimilarity prev_window.keywords curr_window.keywords
  if similarity < p.similarity_threshold then
    let prev_phase := inferPhaseName prev_window.keywords
    let curr_phase := inferPhaseName curr_window.keywords
    let similarity_score := 1 - similarity
    let event_density_score := min 1 ((curr_window.event_count : ℚ) / 10)
    let keyword_quality_score :=
      min 1 ((curr_window.keywords.length : ℚ) / p.top_keywords)
    let confidence := (0.5 : ℚ) * similarity_score +
      (0.3 : ℚ) * event_density_score + (0.2 : ℚ) * keyword_quality_score
    some
      { date := curr_window.start
        previous_phase := prev_phase
        new_phase := curr_phase
        previous_keywords := prev_window.keywords.take 5
        new_keywords := curr_window.keywords.take 5
        similarity_score := roundTo 3 similarity
        confidence := roundTo 3 confidence
        event_count := curr_window.event_count
        description := "Phase transition from " ++ prev_phase ++ " to " ++ curr_phase }
  else none

/-- `_identify_transitions(window_topics)` (lines 213-262): the loop over
`i in range(1, len(window_topics))`, realised over consecutive pairs. -/
def identifyTransitions (p : PhaseParams) : List WindowTopic → List PhaseTransitionRow
  | prev_window :: curr_window :: rest =>
    (match pairTransition p prev_window curr_window with
      | some t => [t]
      | none => []) ++ identifyTransitions p (curr_window :: rest)
  | _ => []

instance : IsTotal PhaseTransitionRow (fun a b => a.date ≤ b.date) :=
  ⟨fun a b => le_total a.date b.date⟩

instance : IsTrans PhaseTransitionRow (fun a b => a.date ≤ b.date) :=
  ⟨fun _ _ _ h1 h2 => le_trans h1 h2⟩

/-- `detect_transitions(timeline_df)` (lines 51-94).  The window creation
(`_create_time_windows`) and TF-IDF topic extraction
(`_extract_window_topics`, scikit-learn) are abstract stage parameters;
the guards, identification and final date sort are from the source (the
positional `transition_id` column is not repeated). -/
def detectTransitions (createWindows : List TimelineEvent → List (List TimelineEvent))
    (extractTopics : List (List TimelineEvent) → List WindowTopic)
    (p : PhaseParams) (timeline_df : List TimelineEvent) : List PhaseTransitionRow :=
  if timeline_df = [] ∨ timeline_df.length < p.min_events_per_window then []
  else
    let windows := createWindows timeline_df
    if windows.length < 2 then []
    else
      let window_topics := extractTopics windows
      if window_topics.length < 2 then []
      else
        let transitions := identifyTransitions p window_topics
        if transitions = [] then []
        else List.insertionSort (fun a b => a.date ≤ b.date) transitions

/-- **C4 (amended).** For consecutive windows with identical non-empty
keyword sets the Jaccard similarity is exactly 1 and no transition is
emitted for that pair, for every `similarity_threshold ≤ 1` (the
condition is `similarity < threshold`, so a threshold above 1 — which the
constructor does not rule out — would still fire; the default 0.4 and
every meaningful threshold satisfy the bound). -/
theorem jaccard_identical_no_transition (p : PhaseParams)
    (hthr : p.similarity_threshold ≤ 1) (prev_window curr_window : WindowTopic)
    (rest : List WindowTopic)
    (hset : prev_window.keywords.toFinset = curr_window.keywords.toFinset)
    (hne : curr_window.keywords ≠ []) :
    jaccardSimilarity prev_window.keywords curr_window.keywords = 1 ∧
      pairTransition p prev_window curr_window = none ∧
      identifyTransitions p (prev_window :: curr_window :: rest) =
        identifyTransitions p (curr_window :: rest) := by
  have hpos : 0 < curr_window.keywords.toFinset.card := by
    rcases List.exists_cons_of_ne_nil hne with ⟨k, ks, hk⟩
    rw [hk]
    exact Finset.card_pos.mpr ⟨k, by simp⟩
  have hsim : jaccardSimilarity prev_window.keywords curr_window.keywords = 1 := by
    rw [jaccardSimilarity]
    simp only [hset, Finset.inter_self, Finset.union_self]
    rw [if_pos hpos]
    exact div_self (by exact_mod_cast hpos.ne')
  have hnone : pairTransition p prev_window curr_window = none := by
    rw [pairTransition]
    simp only [hsim]
    rw [if_neg (not_lt.mpr hthr)]
  refine ⟨hsim, hnone, ?_⟩
  rw [identifyTransitions, hnone]
  simp

/-- Witness for `jaccard_identical_no_transition` at the default
parameters and a repeated `["design"]` window. -/
theorem jaccard_identical_no_transition_witness :
    ((PhaseParams.mk 30 15 (0.4 : ℚ) 3 10).similarity_threshold ≤ 1 ∧
        (⟨0, 0, 720, ["design"], 3, []⟩ : WindowTopic).keywords.toFinset =
          (⟨1, 360, 1080, ["design"], 4, []⟩ : WindowTopic).keywords.toFinset ∧
        (⟨1, 360, 1080, ["design"], 4, []⟩ : WindowTopic).keywords ≠ []) ∧
      (jaccardSimilarity ["design"] ["design"] = 1 ∧
        pairTransition (PhaseParams.mk 30 15 (0.4 : ℚ) 3 10)
          ⟨0, 0, 720, ["design"], 3, []⟩ ⟨1, 360, 1080, ["design"], 4, []⟩ = none ∧
        identifyTransitions (PhaseParams.mk 30 15 (0.4 : ℚ) 3 10)
            [⟨0, 0, 720, ["design"], 3, []⟩, ⟨1, 360, 1080, ["design"], 4, []⟩] =
          identifyTransitions (PhaseParams.mk 30 15 (0.4 : ℚ) 3 10)
            [⟨1, 360, 1080, ["design"], 4, []⟩]) :=
  ⟨⟨by norm_num, by rfl, by decide⟩,
    jaccard_identical_no_transition (PhaseParams.mk 30 15 (0.4 : ℚ) 3 10)
      (by norm_num) ⟨0, 0, 720, ["design"], 3, []⟩ ⟨1, 360, 1080, ["design"], 4, []⟩
      [] (by rfl) (by decide)⟩

/-- **C4 (counterexample).** With the configurable threshold set to `3/2`,
two consecutive windows with the identical non-empty keyword set
`["design"]` have similarity 1 yet a transition *is* emitted, refuting
"never trigger a transition regardless of threshold". -/
theorem jaccard_identical_transition_counterexample :
    jaccardSimilarity ["design"] ["design"] = 1 ∧
      identifyTransitions (PhaseParams.mk 30 15 (3 / 2 : ℚ) 3 10)
        [⟨0, 0, 720, ["design"], 3, []⟩, ⟨1, 360, 1080, ["design"], 4, []⟩] ≠ [] := by
  have hsim : jaccardSimilarity ["design"] ["design"] = 1 := by
    norm_num [jaccardSimilarity]
  refine ⟨hsim, ?_⟩
  have hp : ∃ t, pairTransition (PhaseParams.mk 30 15 (3 / 2 : ℚ) 3 10)
      ⟨0, 0, 720, ["design"], 3, []⟩ ⟨1, 360, 1080, ["design"], 4, []⟩ = some t := by
    rw [pairTransition]
    simp only [hsim]
    rw [if_pos (by norm_num)]
    exact ⟨_, rfl⟩
  rcases hp with ⟨t, ht⟩
  rw [identifyTransitions, ht]
  simp

/-! ## Milestone detector (src/analysis/milestone_detector.py) -/

/-- `MilestoneDetector.__init__` parameters, including the two keyword
lists (`None` selects the defaults below). -/
structure MilestoneParams where
  large_meeting_threshold : ℕ
  follow_up_window_hours : ℚ
  min_follow_ups : ℕ
  deliverable_keywords : List String
  planning_keywords : List String

def defaultDeliverableKeywords : List String :=
  ["presentation", "demo", "review", "showcase", "deliverable",
   "launch", "release", "delivery", "final", "approval"]

def defaultPlanningKeywords : List String :=
  ["workshop", "briefing", "kickoff", "strategy", "planning",
   "brainstorm", "discovery", "scoping", "roadmap", "alignment"]

/-- One milestone row.  Decision-point dictionaries carry no `keywords`
key (the DataFrame union fills it with NaN); they are modelled with
`keywords = []`.  The positional `milestone_id` column is the index and is
not repeated. -/
structure MilestoneRow where
  date : ℚ
  type : String
  title : String
  participants : List String
  participant_count : ℕ
  confidence : ℚ
  description : String
  follow_up_count : ℕ
  event_id : String
  keywords : List String
deriving DecidableEq

instance : IsTotal MilestoneRow (fun a b => a.date ≤ b.date) :=
  ⟨fun a b => le_total a.date b.date⟩

instance : IsTrans MilestoneRow (fun a b => a.date ≤ b.date) :=
  ⟨fun _ _ _ h1 h2 => le_trans h1 h2⟩

/-- `_detect_decision_points(calendar_events, timeline_df)` (lines
103-163): large meetings followed by enough follow-up emails within the
window and at most 3 events in the subsequent 72-hour calm window. -/
def detectDecisionPoints (p : MilestoneParams) (calendar_events : List CalendarEvent)
    (timeline_df : List TimelineEvent) : List MilestoneRow :=
  (calendar_events.filter fun e => p.large_meeting_threshold ≤ e.attendees.length).filterMap
    fun meeting =>
      let follow_up_start := meeting.start
      let follow_up_end := meeting.start + p.follow_up_window_hours
      let follow_ups := (timeline_df.filter fun ev =>
        decide (follow_up_start < ev.date) && decide (ev.date ≤ follow_up_end) &&
          (ev.type == "email")).length
      let calm_start := follow_up_end
      let calm_end := calm_start + 72
      let calm_events := (timeline_df.filter fun ev =>
        decide (calm_start < ev.date) && decide (ev.date ≤ calm_end)).length
      if p.min_follow_ups ≤ follow_ups ∧ calm_events ≤ 3 then
        let follow_up_score := min 1 ((follow_ups : ℚ) / 10)
        let size_score := min 1 ((meeting.attendees.length : ℚ) / 15)
        let calm_score := 1 - min 1 ((calm_events : ℚ) / 3)
        let confidence := (0.4 : ℚ) * follow_up_score + (0.4 : ℚ) * size_score +
          (0.2 : ℚ) * calm_score
        let n := meeting.attendees.length
        let k := follow_ups
        some
          { date := meeting.start
            type := "decision_point"
            title := meeting.summary
            participants := meeting.attendees
            participant_count := meeting.attendees.length
            confidence := roundTo 3 confidence
            description :=
              s!"Major decision meeting with {n} participants, {k} follow-up communications"
            follow_up_count := follow_ups
            event_id := meeting.uid
            keywords := [] }
      else none

/-- `_detect_deliverables(calendar_events, timeline_df)` (lines 165-220):
keyword-matching meetings with confidence at least 0.5; the timeline
argument is unused in the source as well. -/
def detectDeliverables (p : MilestoneParams) (calendar_events : List CalendarEvent)
    (_timeline_df : List TimelineEvent) : List MilestoneRow :=
  calendar_events.filterMap fun meeting =>
    let summary_lower := strLower meeting.summary
    let keyword_matches := p.deliverable_keywords.filter fun kw =>
      strContains summary_lower kw
    if keyword_matches = [] then none
    else
      let attendee_orgs : Finset String :=
        ((meeting.attendees.filter fun a => a.data.contains '@').map
          fun a => (pySplit a '@').getD 1 "").toFinset
      let keyword_score := min 1 ((keyword_matches.length : ℚ) / 2)
      let size_score := min 1 ((meeting.attendees.length : ℚ) / 10)
      -- `cross_org = len(attendee_orgs) > 1`
      let cross_org_score : ℚ := if 1 < attendee_orgs.card then 1 else (0.5 : ℚ)
      let confidence := (0.5 : ℚ) * keyword_score + (0.3 : ℚ) * size_score +
        (0.2 : ℚ) * cross_org_score
      if (0.5 : ℚ) ≤ confidence then
        let ks := ", ".intercalate keyword_matches
        some
          { date := meeting.start
            type := "deliverable"
            title := meeting.summary
            participants := meeting.attendees
            participant_count := meeting.attendees.length
            confidence := roundTo 3 confidence
            description := s!"Deliverable event: {ks}"
            follow_up_count := 0
            event_id := meeting.uid
            keywords := keyword_matches }
      else none

/-- `_detect_planning_phases(calendar_events, timeline_df)` (lines
222-278): keyword-matching meetings with at least two events in the
following 7 days. -/
def detectPlanningPhases (p : MilestoneParams) (calendar_events : List CalendarEvent)
    (timeline_df : List TimelineEvent) : List MilestoneRow :=
  calendar_events.filterMap fun meeting =>
    let summary_lower := strLower meeting.summary
    let keyword_matches := p.planning_keywords.filter fun kw =>
      strContains summary_lower kw
    if keyword_matches = [] then none
    else
      let burst_window_start := meeting.start
      let burst_window_end := meeting.start + 7 * 24
      let subsequent_events := (timeline_df.filter fun ev =>
        decide (burst_window_start < ev.date) && decide (ev.date ≤ burst_window_end)).length
      let keyword_score := min 1 ((keyword_matches.length : ℚ) / 2)
      let size_score := min 1 ((meeting.attendees.length : ℚ) / 12)
      let activity_score := min 1 ((subsequent_events : ℚ) / 10)
      let confidence := (0.4 : ℚ) * keyword_score + (0.3 : ℚ) * size_score +
        (0.3 : ℚ) * activity_score
      if 2 ≤ subsequent_events then
        let ks := ", ".intercalate keyword_matches
        let n := subsequent_events
        some
          { date := meeting.start
            type := "planning_phase"
            title := meeting.summary
            participants := meeting.attendees
            participant_count := meeting.attendees.length
            confidence := roundTo 3 confidence
            description := s!"Planning phase: {ks}, {n} subsequent events"
            follow_up_count := subsequent_events
            event_id := meeting.uid
            keywords := keyword_matches }
      else none

/-- `detect_milestones(calendar_events, timeline_df)` (lines 60-101):
concatenate the three patterns, return an empty table when nothing was
found, otherwise sort by date. -/
def detectMilestones (p : MilestoneParams) (calendar_events : List CalendarEvent)
    (timeline_df : List TimelineEvent) : List MilestoneRow :=
  let milestones := detectDecisionPoints p calendar_events timeline_df ++
    detectDeliverables p calendar_events timeline_df ++
    detectPlanningPhases p calendar_events timeline_df
  if milestones = [] then []
  else List.insertionSort (fun a b => a.date ≤ b.date) milestones

/-- **C2 (amended).** On empty input every detector except the milestone
detector short-circuits to an empty result: bursts on an empty timeline,
influence on a person-free (in particular empty) graph, handoffs on fewer
than two rows, phase transitions on an empty timeline.  For the milestone
detector an empty timeline empties the decision-point pattern (whenever
`min_follow_ups ≥ 1`, as the default 3 is) and the planning pattern, but
`detect_milestones` can still return deliverable milestones computed from
the meeting list alone. -/
theorem detectors_empty_input (bp : BurstParams) (ip : InfluenceParams)
    (hp : HandoffParams) (pp : PhaseParams) (mp : MilestoneParams)
    (pagerank degree betweenness : String → ℚ) (g : InfluenceGraph)
    (createWindows : List TimelineEvent → List (List TimelineEvent))
    (extractTopics : List (List TimelineEvent) → List WindowTopic)
    (meetings : List CalendarEvent) (tl0 tl2 : List TimelineEvent)
    (hg : g.nodes.filter (fun nd => nd.type == "person") = [])
    (hf : 1 ≤ mp.min_follow_ups) (htl2 : tl2.length < 2) :
    detectBursts bp [] = [] ∧
      calculateInfluence ip pagerank degree betweenness g tl0 = [] ∧
      detectHandoffs hp tl2 = [] ∧
      detectTransitions createWindows extractTopics pp [] = [] ∧
      detectDecisionPoints mp meetings [] = [] ∧
      detectPlanningPhases mp meetings [] = [] := by
  refine ⟨?_, ?_, ?_, ?_, ?_, ?_⟩
  · rw [detectBursts, if_pos rfl]
  · rw [calculateInfluence]
    split
    · rfl
    · simp [hg]
  · rw [detectHandoffs, if_pos (Or.inr htl2)]
  · rw [detectTransitions, if_pos (Or.inl rfl)]
  · rw [detectDecisionPoints]
    refine List.filterMap_eq_nil_iff.mpr fun meeting _ => ?_
    simp only [List.filter_nil, List.length_nil]
    rw [if_neg]
    intro hc
    omega
  · rw [detectPlanningPhases]
    refine List.filterMap_eq_nil_iff.mpr fun meeting _ => ?_
    simp only [List.filter_nil, List.length_nil]
    split
    · rfl
    · rw [if_neg (by omega)]

def c2Params : MilestoneParams :=
  ⟨7, 48, 3, defaultDeliverableKeywords, defaultPlanningKeywords⟩

def c2Meeting : CalendarEvent :=
  ⟨"m1", "final presentation review", 0, 1, "o", ["a", "b"], false, false⟩

/-- Witness for `detectors_empty_input` at the default parameters, an
empty graph and a non-empty meeting list. -/
theorem detectors_empty_input_witness :
    ((⟨[]⟩ : InfluenceGraph).nodes.filter (fun nd => nd.type == "person") = [] ∧
        1 ≤ c2Params.min_follow_ups ∧ ([] : List TimelineEvent).length < 2) ∧
      (detectBursts (BurstParams.mk 48 8 3 8) [] = [] ∧
        calculateInfluence ⟨(0.03 : ℚ), 10⟩ (fun _ => 0) (fun _ => 0) (fun _ => 0)
          ⟨[]⟩ [] = [] ∧
        detectHandoffs (HandoffParams.mk 14 2 (0.7 : ℚ)) [] = [] ∧
        detectTransitions (fun _ => []) (fun _ => [])
          (PhaseParams.mk 30 15 (0.4 : ℚ) 3 10) [] = [] ∧
        detectDecisionPoints c2Params [c2Meeting] [] = [] ∧
        detectPlanningPhases c2Params [c2Meeting] [] = []) :=
  ⟨⟨rfl, by decide, by decide⟩,
    detectors_empty_input (BurstParams.mk 48 8 3 8) ⟨(0.03 : ℚ), 10⟩
      (HandoffParams.mk 14 2 (0.7 : ℚ)) (PhaseParams.mk 30 15 (0.4 : ℚ) 3 10)
      c2Params (fun _ => 0) (fun _ => 0) (fun _ => 0) ⟨[]⟩ (fun _ => [])
      (fun _ => []) [c2Meeting] [] [] rfl (by decide) (by decide)⟩

/-- **C2 (counterexample).** The milestone detector run with an *empty*
timeline and the single meeting "final presentation review" (two
attendees) returns a non-empty table: `_detect_deliverables` never
consults the timeline, matches three deliverable keywords and reaches
confidence 0.66 ≥ 0.5. -/
theorem milestone_empty_timeline_counterexample :
    detectMilestones c2Params [c2Meeting] [] ≠ [] := by
  have hdp : detectDecisionPoints c2Params [c2Meeting] [] = [] := by decide
  have hpl : detectPlanningPhases c2Params [c2Meeting] [] = [] := by decide
  have hkm : defaultDeliverableKeywords.filter
      (fun kw => strContains (strLower "final presentation review") kw) =
        ["presentation", "review", "final"] := by decide
  have horg : ((["a", "b"].filter fun a => a.data.contains '@').map
      fun a => (pySplit a '@').getD 1 "") = ([] : List String) := by decide
  have hdl : detectDeliverables c2Params [c2Meeting] [] ≠ [] := by
    norm_num [detectDeliverables, c2Params, c2Meeting, hkm, roundTo, round_eq]
    refine ⟨"presentation", by decide, by decide, ?_, by simp⟩
    split
    · norm_num
    · norm_num
  rw [detectMilestones]
  simp only [hdp, hpl, List.nil_append, List.append_nil]
  rw [if_neg hdl]
  intro hc
  have hperm := List.perm_insertionSort (fun a b : MilestoneRow => a.date ≤ b.date)
    (detectDeliverables c2Params [c2Meeting] [])
  have hlen := congrArg List.length hc
  rw [hperm.length_eq] at hlen
  simp only [List.length_nil] at hlen
  exact hdl (List.length_eq_zero.mp hlen)

end ProjectTrace
